import Mathlib

/-!
Verification of `src/server/db.js` (tiny-random-concert)

The module is a set of asynchronous helpers over a realtime database holding three paths:
`concerts/links`, `concerts/concerts_count` and `concerts/revid`.

The embedding has three layers.

* JavaScript values and the few language operations the module uses (`!x`, `typeof`,
  `Array.isArray`, `x || y`, `x + y`, property access, `Math.floor`).
* The external database client (`db.ref`, `ref.once`, `ref.set`, `ref.push`,
  `ref.transaction`), which is not part of the repository.  The client checks a path or a value
  before it sends anything and throws when it refuses it; a remote call that is made either
  completes or fails with an error, and the outcome of the k-th remote call of an operation is
  supplied from outside (`Nat → Remote`).
* The eight exported functions of `db.js`, translated statement by statement.  Every run returns
  the settled promise (`Except JsError JsVal`), the database afterwards and the remote calls made.

A finite JavaScript number is the rational it denotes, NaN and the infinities are separate
values, and negative zero is identified with zero.  Sums and products are rounded to the nearest
double, ties to even (`toDouble`).
-/

namespace ConcertDb

/-! ## JavaScript values -/

/-- A JavaScript number. -/
inductive JsNum where
  | nan
  | posInf
  | negInf
  | fin (q : ℚ)

/-- A JavaScript value, as far as JSON data and `undefined` go. -/
inductive JsVal where
  | undefined
  | null
  | bool (b : Bool)
  | num (n : JsNum)
  | str (s : String)
  | arr (xs : List JsVal)
  | obj (kvs : List (String × JsVal))

/-- A thrown value: an `Error` object with its constructor name and message. -/
structure JsError where
  name : String
  message : String

/-- The value of `new Error(msg)`. -/
def mkError (msg : String) : JsError :=
  { name := "Error", message := msg }

/-- The `TypeError` raised by a property access or destructuring on `null` or `undefined`. -/
def nullishTypeError : JsError :=
  { name := "TypeError", message := "Cannot read properties of null or undefined" }

/-- Conversions of the JavaScript engine that the module never fixes itself; they are only
reached on strings, arrays and plain objects. -/
structure Runtime where
  /-- The conversion `Number(s)` of a string. -/
  strToNumber : String → JsNum
  /-- The conversion `String(n)` of a number. -/
  numToString : JsNum → String
  /-- The primitive (a string) of an array or of a plain object. -/
  objToPrimitive : JsVal → String
  /-- The property `s[k]` of a string for a numeric key. -/
  strMember : String → JsNum → JsVal

/-- The truthiness of a value: `!x` is `!(truthy x)`. -/
def truthy : JsVal → Bool
  | .undefined => false
  | .null => false
  | .bool b => b
  | .num .nan => false
  | .num (.fin q) => decide (q ≠ 0)
  | .num _ => true
  | .str s => decide (s ≠ "")
  | .arr _ => true
  | .obj _ => true

/-- The operator `typeof`. -/
def typeOf : JsVal → String
  | .undefined => "undefined"
  | .null => "object"
  | .bool _ => "boolean"
  | .num _ => "number"
  | .str _ => "string"
  | .arr _ => "object"
  | .obj _ => "object"

/-- The function `Array.isArray`. -/
def isArray : JsVal → Bool
  | .arr _ => true
  | _ => false

/-- The conversion `ToNumber`. -/
def toNumber (rt : Runtime) : JsVal → JsNum
  | .undefined => .nan
  | .null => .fin 0
  | .bool b => if b then .fin 1 else .fin 0
  | .num n => n
  | .str s => rt.strToNumber s
  | .arr xs => rt.strToNumber (rt.objToPrimitive (.arr xs))
  | .obj kvs => rt.strToNumber (rt.objToPrimitive (.obj kvs))

/-- The global function `isNaN`. -/
def isNaN (rt : Runtime) (v : JsVal) : Bool :=
  match toNumber rt v with
  | .nan => true
  | _ => false

/-- The conversion `ToString` of a value. -/
def toStr (rt : Runtime) : JsVal → String
  | .undefined => "undefined"
  | .null => "null"
  | .bool b => if b then "true" else "false"
  | .num n => rt.numToString n
  | .str s => s
  | .arr xs => rt.objToPrimitive (.arr xs)
  | .obj kvs => rt.objToPrimitive (.obj kvs)

/-- The integer nearest to a rational that is not negative, a tie going to the even one. -/
def roundHalfEven (x : ℚ) : ℤ :=
  if x - ⌊x⌋ < 1 / 2 then ⌊x⌋
  else if 1 / 2 < x - ⌊x⌋ then ⌊x⌋ + 1
  else if ⌊x⌋ % 2 = 0 then ⌊x⌋
  else ⌊x⌋ + 1

/-- The exponent `e` of the spacing `2 ^ e` of the doubles around the positive rational `a`: the
significand `a / 2 ^ e` has 53 bits, and the exponent does not go below that of the subnormal
numbers. -/
def ulpExp (a : ℚ) : ℤ :=
  max (Int.log 2 a - 52) (-1074)

/-- The double nearest to a rational (round to nearest, ties to even), an infinity when the
rounded magnitude reaches `2 ^ 1024`. -/
def toDouble (q : ℚ) : JsNum :=
  if q = 0 then .fin 0
  else if (2 : ℚ) ^ (1024 : ℕ) ≤ (roundHalfEven (|q| / 2 ^ ulpExp |q|) : ℚ) * 2 ^ ulpExp |q| then
    (if 0 < q then .posInf else .negInf)
  else if 0 < q then .fin ((roundHalfEven (|q| / 2 ^ ulpExp |q|) : ℚ) * 2 ^ ulpExp |q|)
  else .fin (-((roundHalfEven (|q| / 2 ^ ulpExp |q|) : ℚ) * 2 ^ ulpExp |q|))

/-- Addition of two numbers. -/
def numAdd : JsNum → JsNum → JsNum
  | .nan, _ => .nan
  | _, .nan => .nan
  | .posInf, .negInf => .nan
  | .negInf, .posInf => .nan
  | .posInf, _ => .posInf
  | _, .posInf => .posInf
  | .negInf, _ => .negInf
  | _, .negInf => .negInf
  | .fin a, .fin b => toDouble (a + b)

/-- The product of an infinity (positive when `pos`) and the finite number `q`. -/
def infTimes (pos : Bool) (q : ℚ) : JsNum :=
  if q = 0 then .nan
  else if decide (0 < q) = pos then .posInf
  else .negInf

/-- Multiplication of two numbers. -/
def numMul : JsNum → JsNum → JsNum
  | .nan, _ => .nan
  | _, .nan => .nan
  | .posInf, .posInf => .posInf
  | .negInf, .negInf => .posInf
  | .posInf, .negInf => .negInf
  | .negInf, .posInf => .negInf
  | .posInf, .fin q => infTimes true q
  | .negInf, .fin q => infTimes false q
  | .fin q, .posInf => infTimes true q
  | .fin q, .negInf => infTimes false q
  | .fin a, .fin b => toDouble (a * b)

/-- The function `Math.floor`. -/
def mathFloor : JsNum → JsNum
  | .fin q => .fin (⌊q⌋ : ℤ)
  | n => n

/-- The operator `x || y`. -/
def jsOr (x y : JsVal) : JsVal :=
  if truthy x then x else y

/-- Whether a value is a string or converts to one as a primitive (arrays and plain objects). -/
def stringish : JsVal → Bool
  | .str _ => true
  | .arr _ => true
  | .obj _ => true
  | _ => false

/-- The operator `x + y`: concatenation when either primitive is a string, else a sum. -/
def jsAdd (rt : Runtime) (x y : JsVal) : JsVal :=
  if stringish x || stringish y then .str (toStr rt x ++ toStr rt y)
  else .num (numAdd (toNumber rt x) (toNumber rt y))

/-- The property `v.key` for a name that no built-in prototype defines. -/
def getProp (v : JsVal) (key : String) : Except JsError JsVal :=
  match v with
  | .undefined => .error nullishTypeError
  | .null => .error nullishTypeError
  | .obj kvs => .ok ((kvs.lookup key).getD .undefined)
  | _ => .ok .undefined

/-- Whether the number `k` is an index of a list of length `len`. -/
def validIndex (k : JsNum) (len : Nat) : Bool :=
  match k with
  | .fin q => decide (q.den = 1 ∧ 0 ≤ q.num ∧ q.num.toNat < len)
  | _ => false

/-- The property `v[k]` for a computed numeric key. -/
def getIndex (rt : Runtime) (v : JsVal) (k : JsNum) : Except JsError JsVal :=
  match v with
  | .undefined => .error nullishTypeError
  | .null => .error nullishTypeError
  | .arr xs =>
    match k with
    | .fin q => if q.den = 1 ∧ 0 ≤ q.num then .ok (xs.getD q.num.toNat .undefined) else .ok .undefined
    | _ => .ok .undefined
  | .str s => .ok (rt.strMember s k)
  | .obj kvs => .ok ((kvs.lookup (rt.numToString k)).getD .undefined)
  | _ => .ok .undefined

/-! ## The external database -/

/-- The data under the three paths of the schema.  `links` lists the children of `concerts/links`
in key order, which is the order in which they were pushed, and is read back as an array (the
ordered list of the data model; the keys the service files the children under are not modelled);
the two other paths hold one value each, `null` when nothing is stored. -/
structure Db where
  links : List JsVal
  concerts_count : JsVal
  revid : JsVal

/-- The parts of the database client that the module leaves open: the errors it throws and its
verdict on paths and on structured values. -/
structure Client where
  /-- The error with which the value check of a call (`set`, `push`, `transaction`) refuses
  `undefined`, NaN or an infinity. -/
  invalidValue : String → JsVal → JsError
  /-- The verdict of the value check of a call on a string, an array or an object (an oversized
  string, a refused value inside, a key that is not allowed): the error thrown, if any. -/
  refusesOther : String → JsVal → Option JsError
  /-- What is kept of a non-empty array or object that passed the check (`none` when it has no
  leaf left). -/
  kept : JsVal → Option JsVal
  /-- The verdict of `db.ref(path)` on a path other than the three of the schema. -/
  refusesPath : String → Option JsError

/-- The value check the client runs before it sends a value: the error it throws, if any.  NaN,
the infinities and `undefined` are refused, `null`, booleans and finite numbers pass. -/
def refusal (c : Client) (fn : String) : JsVal → Option JsError
  | .undefined => some (c.invalidValue fn .undefined)
  | .null => none
  | .bool _ => none
  | .num (.fin _) => none
  | .num n => some (c.invalidValue fn (.num n))
  | .str s => c.refusesOther fn (.str s)
  | .arr xs => c.refusesOther fn (.arr xs)
  | .obj kvs => c.refusesOther fn (.obj kvs)

/-- What the service keeps of a value that was sent: nothing for `null`, for an empty array and
for an empty object. -/
def stored (c : Client) : JsVal → Option JsVal
  | .undefined => none
  | .null => none
  | .arr [] => none
  | .obj [] => none
  | .arr xs => c.kept (.arr xs)
  | .obj kvs => c.kept (.obj kvs)
  | v => some v

/-- The check of `db.ref(path)`: the three paths of the schema are valid. -/
def pathRefusal (c : Client) (path : String) : Option JsError :=
  if path = "concerts/links" ∨ path = "concerts/concerts_count" ∨ path = "concerts/revid" then none
  else c.refusesPath path

/-- The value `snapshot.val()` of a path: a path without data reads as `null`, and so does an
empty list. -/
def Db.val (db : Db) (path : String) : JsVal :=
  if path = "concerts/links" then (if db.links.isEmpty then .null else .arr db.links)
  else if path = "concerts/concerts_count" then db.concerts_count
  else if path = "concerts/revid" then db.revid
  else .null

/-- The database after the value of a path is replaced. -/
def Db.write (db : Db) (path : String) (v : JsVal) : Db :=
  if path = "concerts/links" then
    (match v with
     | .arr xs => { db with links := xs }
     | .null => { db with links := [] }
     | _ => db)
  else if path = "concerts/concerts_count" then { db with concerts_count := v }
  else if path = "concerts/revid" then { db with revid := v }
  else db

/-- The database after a child is appended to a list path. -/
def Db.append (db : Db) (path : String) (v : JsVal) : Db :=
  if path = "concerts/links" then { db with links := db.links ++ [v] } else db

/-- The outcome of one remote call. -/
inductive Remote where
  | done
  | failed (e : JsError)

/-- A remote call made by an operation. -/
inductive Call where
  | once (path : String)
  | set (path : String) (v : JsVal)
  | push (path : String) (v : JsVal)
  | transaction (path : String)

/-- The state of a run: the settled promise, the database and the remote calls made. -/
structure Run where
  result : Except JsError JsVal
  db : Db
  calls : List Call

/-- The call `await db.ref(path).once("value")` followed by `snapshot.val()`. -/
def refOnce (o : Remote) (db : Db) (path : String) : Run :=
  match o with
  | .done => { result := .ok (db.val path), db := db, calls := [.once path] }
  | .failed e => { result := .error e, db := db, calls := [.once path] }

/-- The call `await db.ref(path).set(v)`: a value the client refuses is not sent, and a failed
write leaves the data as it was. -/
def refSet (c : Client) (o : Remote) (db : Db) (path : String) (v : JsVal) : Run :=
  match refusal c "set" v with
  | some err => { result := .error err, db := db, calls := [] }
  | none =>
    match o with
    | .done =>
      { result := .ok .undefined, db := db.write path ((stored c v).getD .null),
        calls := [.set path v] }
    | .failed e => { result := .error e, db := db, calls := [.set path v] }

/-- Whether a value is `null` or `undefined`. -/
def nullish : JsVal → Bool
  | .undefined => true
  | .null => true
  | _ => false

/-- The synchronous part of `db.ref(path).push(v)`: the value check, which a missing value
skips; the error is thrown by the call itself. -/
def pushThrows (c : Client) (v : JsVal) : Option JsError :=
  match v with
  | .undefined => none
  | _ => refusal c "push" v

/-- The promise of `db.ref(path).push(v)` for a value that passed the check: the client writes
the new child only when `v` is neither `null` nor `undefined`, and otherwise resolves without a
remote call; the service keeps the child unless nothing is left to keep. -/
def refPush (c : Client) (o : Remote) (db : Db) (path : String) (v : JsVal) : Run :=
  if nullish v then { result := .ok .undefined, db := db, calls := [] }
  else
    match o with
    | .done =>
      match stored c v with
      | some w => { result := .ok .undefined, db := db.append path w, calls := [.push path v] }
      | none => { result := .ok .undefined, db := db, calls := [.push path v] }
    | .failed e => { result := .error e, db := db, calls := [.push path v] }

/-- The call `await db.ref(path).transaction(f)`: the stored value is replaced by `f` of it in
one step; a result of `undefined` aborts the transaction, and a result the client refuses is
thrown before anything is sent. -/
def refTransaction (c : Client) (o : Remote) (db : Db) (path : String) (f : JsVal → JsVal) : Run :=
  match f (db.val path) with
  | .undefined => { result := .ok .undefined, db := db, calls := [] }
  | v =>
    match refusal c "transaction" v with
    | some err => { result := .error err, db := db, calls := [] }
    | none =>
      match o with
      | .done =>
        { result := .ok .undefined, db := db.write path ((stored c v).getD .null),
          calls := [.transaction path] }
      | .failed e => { result := .error e, db := db, calls := [.transaction path] }

/-! ## The exported functions of `db.js` -/

/-- The function `getData(path)`: the value at the path; an error of `db.ref` or of the read is
logged and thrown again. -/
def getData (c : Client) (o : Nat → Remote) (db : Db) (path : String) : Run :=
  match pathRefusal c path with
  | some error => { result := .error error, db := db, calls := [] }
  | none =>
    let r := refOnce (o 0) db path
    match r.result with
    | .ok v => { r with result := .ok v }
    | .error error => { r with result := .error error }

/-- The function `setRevid(id)`. -/
def setRevid (c : Client) (o : Nat → Remote) (db : Db) (id : JsVal) : Run :=
  if !truthy id || typeOf id != "number" then
    { result := .error (mkError "revid must be a valid number"), db := db, calls := [] }
  else
    let r := refSet c (o 0) db "concerts/revid" id
    match r.result with
    | .ok _ => { r with result := .ok .undefined }
    | .error error => { r with result := .error (mkError ("Failed to set revid: " ++ error.message)) }

/-- The state of `concertsLinks.map(link => linksRef.push(link))`: the error of a push that threw
(the map stops there), the first rejected promise among the pushes made, the database and the
remote calls. -/
structure Pushes where
  thrown : Option JsError
  rejected : Option JsError
  db : Db
  calls : List Call

/-- The pushes `concertsLinks.map(link => linksRef.push(link))`, element `k` first.  A push that
throws ends the map, so the later elements are not pushed; otherwise every push is made, and the
first rejection (if any) is what `Promise.all` rejects with. -/
def pushEach (c : Client) (o : Nat → Remote) (path : String) : Nat → List JsVal → Db → Pushes
  | _, [], db => { thrown := none, rejected := none, db := db, calls := [] }
  | k, link :: rest, db =>
    match pushThrows c link with
    | some err => { thrown := some err, rejected := none, db := db, calls := [] }
    | none =>
      let r := refPush c (o k) db path link
      let t := pushEach c o path (k + 1) rest r.db
      { thrown := t.thrown,
        rejected := (match r.result with
          | .error e => some e
          | .ok _ => t.rejected),
        db := t.db, calls := r.calls ++ t.calls }

/-- The elements of an array (`[]` for a value that is no array, whose `length` is not asked). -/
def elements : JsVal → List JsVal
  | .arr xs => xs
  | _ => []

/-- The function `setConcertsLinks(concertsLinks)`. -/
def setConcertsLinks (c : Client) (o : Nat → Remote) (db : Db) (concertsLinks : JsVal) : Run :=
  if !isArray concertsLinks || (elements concertsLinks).length = 0 then
    { result := .error (mkError "concerts/links must be non-empty array"), db := db, calls := [] }
  else
    let t := pushEach c o "concerts/links" 0 (elements concertsLinks) db
    match t.thrown with
    | some error =>
      { result := .error (mkError ("Failed to set concertsLinks: " ++ error.message)),
        db := t.db, calls := t.calls }
    | none =>
      match t.rejected with
      | some error =>
        { result := .error (mkError ("Failed to set concertsLinks: " ++ error.message)),
          db := t.db, calls := t.calls }
      | none => { result := .ok .undefined, db := t.db, calls := t.calls }

/-- The function `addNewConcertLink(link)`. -/
def addNewConcertLink (c : Client) (o : Nat → Remote) (db : Db) (link : JsVal) : Run :=
  if !truthy link || typeOf link != "string" then
    { result := .error (mkError "concertLink must be a valid string"), db := db, calls := [] }
  else
    match pushThrows c link with
    | some error =>
      { result := .error (mkError ("Failed to add new concert link: " ++ error.message)),
        db := db, calls := [] }
    | none =>
      let r := refPush c (o 0) db "concerts/links" link
      match r.result with
      | .ok _ => { r with result := .ok .undefined }
      | .error error =>
        { r with result := .error (mkError ("Failed to add new concert link: " ++ error.message)) }

/-- The helper `getRandomInt(max)` of lines 83-86 of `db.js` (the module also names a
`getRandomInt` of `./utils.js` in its first lines; the local one is what `getRandConcert` is read
against), with `random` the value drawn by `Math.random()`. -/
def getRandomInt (rt : Runtime) (random : ℚ) (max : JsVal) : JsNum :=
  mathFloor (numMul (.fin random) (toNumber rt max))

/-- The function `getRandConcert()`, with `random` the value drawn by `Math.random()`.  Remote
call 0 is the read of the count, remote call 1 the read of the links. -/
def getRandConcert (rt : Runtime) (c : Client) (o : Nat → Remote) (db : Db) (random : ℚ) : Run :=
  let r := getData c o db "concerts/concerts_count"
  match r.result with
  | .error error => { r with result := .error error }
  | .ok v =>
    match getProp v "concerts_count" with
    | .error error => { r with result := .error error }
    | .ok maxCount =>
      let randomIndex := getRandomInt rt random maxCount
      let s := refOnce (o 1) r.db "concerts/links"
      match s.result with
      | .error error => { result := .error error, db := s.db, calls := r.calls ++ s.calls }
      | .ok parsedLinks =>
        match getIndex rt parsedLinks randomIndex with
        | .error error => { result := .error error, db := s.db, calls := r.calls ++ s.calls }
        | .ok link => { result := .ok link, db := s.db, calls := r.calls ++ s.calls }

/-- The function `updateCount()`: the transaction maps the stored value to
`(currentValue || 0) + 1`. -/
def updateCount (rt : Runtime) (c : Client) (o : Nat → Remote) (db : Db) : Run :=
  let r := refTransaction c (o 0) db "concerts/concerts_count"
    (fun currentValue => jsAdd rt (jsOr currentValue (.num (.fin 0))) (.num (.fin 1)))
  match r.result with
  | .ok _ => { r with result := .ok .undefined }
  | .error error => { r with result := .error error }

/-- The function `getCount()`. -/
def getCount (o : Nat → Remote) (db : Db) : Run :=
  let r := refOnce (o 0) db "concerts/concerts_count"
  match r.result with
  | .ok v => { r with result := .ok v }
  | .error error => { r with result := .error error }

/-- The function `setCount(num)`. -/
def setCount (rt : Runtime) (c : Client) (o : Nat → Remote) (db : Db) (num : JsVal) : Run :=
  if typeOf num != "number" || isNaN rt num then
    { result := .error (mkError "Count must be a valid number"), db := db, calls := [] }
  else
    let r := refSet c (o 0) db "concerts/concerts_count" num
    match r.result with
    | .ok _ => { r with result := .ok .undefined }
    | .error error => { r with result := .error error }

/-- The calls `addNewConcertLink(x)` for each element `x` in order, every remote call completing;
the sequence stops at the first call that fails. -/
def addEachInOrder (c : Client) (db : Db) : List JsVal → Except JsError Db
  | [] => .ok db
  | link :: rest =>
    match (addNewConcertLink c (fun _ => .done) db link).result with
    | .error e => .error e
    | .ok _ => addEachInOrder c (addNewConcertLink c (fun _ => .done) db link).db rest

/-! ## Fixtures for the instances -/

/-- An engine whose open conversions are constant. -/
def sampleRuntime : Runtime :=
  { strToNumber := fun _ => .nan, numToString := fun _ => "", objToPrimitive := fun _ => "",
    strMember := fun _ _ => .undefined }

/-- The name of a refused value in the message of the client. -/
def refusedName : JsVal → String
  | .num .nan => "NaN"
  | .num .posInf => "Infinity"
  | .num .negInf => "-Infinity"
  | _ => "undefined"

/-- A client that refuses nothing beyond `undefined`, NaN and the infinities, with the message
`<call> failed: value argument contains <value>`, and keeps structured values as they are. -/
def sampleClient : Client :=
  { invalidValue := fun fn v => mkError (fn ++ " failed: value argument contains " ++ refusedName v),
    refusesOther := fun _ _ => none,
    kept := fun v => some v,
    refusesPath := fun _ => none }

/-! ## Rounding to a double -/

theorem roundHalfEven_intCast (m : ℤ) : roundHalfEven (m : ℚ) = m := by
  simp [roundHalfEven]

/-- A rational whose significand is an integer and whose magnitude is below `2 ^ 1024` is a
double, and rounding keeps it. -/
theorem toDouble_exact (q : ℚ) (m : ℤ) (hm : |q| / 2 ^ ulpExp |q| = (m : ℚ))
    (hlt : |q| < 2 ^ (1024 : ℕ)) : toDouble q = .fin q := by
  have hpos : (0 : ℚ) < 2 ^ ulpExp |q| := zpow_pos (by norm_num) _
  have hr : (m : ℚ) * 2 ^ ulpExp |q| = |q| := by
    rw [← hm, div_mul_cancel₀ _ (ne_of_gt hpos)]
  unfold toDouble
  by_cases h0 : q = 0
  · simp [h0]
  · rw [if_neg h0, hm, roundHalfEven_intCast, hr, if_neg (not_le.mpr hlt)]
    by_cases hq : 0 < q
    · rw [if_pos hq, abs_of_pos hq]
    · rw [if_neg hq, abs_of_nonpos (not_lt.mp hq), neg_neg]

theorem ulpExp_nonpos (a : ℚ) (h0 : 0 < a) (h : a < 2 ^ (53 : ℕ)) : ulpExp a ≤ 0 := by
  have hl : Int.log 2 a < 53 := by
    rw [← Int.lt_zpow_iff_log_lt (by norm_num) h0]
    exact_mod_cast h
  unfold ulpExp
  omega

theorem ulpExp_eq (a : ℚ) (k : ℤ) (h0 : 0 < a) (hk : -1022 ≤ k) (hl : (2 : ℚ) ^ k ≤ a)
    (hu : a < (2 : ℚ) ^ (k + 1)) : ulpExp a = k - 52 := by
  have h1 : k ≤ Int.log 2 a := by
    rw [← Int.zpow_le_iff_le_log (by norm_num) h0]
    exact_mod_cast hl
  have h2 : Int.log 2 a < k + 1 := by
    rw [← Int.lt_zpow_iff_log_lt (by norm_num) h0]
    exact_mod_cast hu
  unfold ulpExp
  omega

theorem div_zpow_nonpos_int (z : ℤ) (e : ℤ) (he : e ≤ 0) :
    ∃ m : ℤ, (z : ℚ) / 2 ^ e = (m : ℚ) := by
  refine ⟨z * 2 ^ (-e).toNat, ?_⟩
  have : e = -((-e).toNat : ℤ) := by omega
  rw [this, zpow_neg, zpow_natCast, div_inv_eq_mul]
  push_cast
  rw [Int.toNat_of_nonneg (by omega)]
  simp

/-- An integer of magnitude below `2 ^ 53` is a double. -/
theorem toDouble_intCast (z : ℤ) (h : |z| < 2 ^ (53 : ℕ)) : toDouble (z : ℚ) = .fin (z : ℚ) := by
  by_cases h0 : z = 0
  · simp [h0, toDouble]
  have habs : |(z : ℚ)| = ((|z| : ℤ) : ℚ) := by simp
  have hpos : (0 : ℚ) < |(z : ℚ)| := abs_pos.mpr (by exact_mod_cast h0)
  have hlt : |(z : ℚ)| < 2 ^ (53 : ℕ) := by rw [habs]; exact_mod_cast h
  obtain ⟨m, hm⟩ := div_zpow_nonpos_int |z| (ulpExp |(z : ℚ)|) (ulpExp_nonpos _ hpos hlt)
  rw [← habs] at hm
  refine toDouble_exact _ m hm (lt_trans hlt ?_)
  norm_num

/-- A positive rational in the binade `[2 ^ k, 2 ^ (k + 1))` whose significand is an integer is
a double. -/
theorem toDouble_of_binade (q : ℚ) (k m : ℤ) (h0 : 0 < q) (hk : -1022 ≤ k) (hk2 : k < 1024)
    (hl : (2 : ℚ) ^ k ≤ q) (hu : q < (2 : ℚ) ^ (k + 1)) (hm : q / 2 ^ (k - 52) = (m : ℚ)) :
    toDouble q = .fin q := by
  have ha : |q| = q := abs_of_pos h0
  have he : ulpExp |q| = k - 52 := by rw [ha]; exact ulpExp_eq q k h0 hk hl hu
  refine toDouble_exact q m (by rw [he, ha]; exact hm) ?_
  rw [ha]
  refine lt_of_lt_of_le hu ?_
  have h1 : (2 : ℚ) ^ (k + 1) ≤ (2 : ℚ) ^ (((1024 : ℕ)) : ℤ) :=
    zpow_le_zpow_right₀ (by norm_num) (by omega)
  rw [zpow_natCast] at h1
  exact h1

/-- The double `2 ^ 53`. -/
theorem toDouble_two_pow_53 : toDouble ((2 : ℚ) ^ (53 : ℕ)) = .fin (2 ^ (53 : ℕ)) :=
  toDouble_of_binade _ 53 (2 ^ (52 : ℕ)) (by positivity) (by norm_num) (by norm_num)
    (by norm_num) (by norm_num) (by norm_num)

/-- The sum `2 ^ 53 + 1` is a tie between `2 ^ 53` and `2 ^ 53 + 2` and rounds to `2 ^ 53`. -/
theorem toDouble_two_pow_53_add_one :
    toDouble ((2 : ℚ) ^ (53 : ℕ) + 1) = .fin (2 ^ (53 : ℕ)) := by
  have he : ulpExp |((2 : ℚ) ^ (53 : ℕ) + 1)| = 1 := by
    rw [ulpExp_eq _ 53 (by positivity) (by norm_num)]
    · norm_num
    · rw [abs_of_pos (by positivity)]; norm_num
    · rw [abs_of_pos (by positivity)]; norm_num
  have hf : ⌊(((2 : ℚ) ^ (53 : ℕ) + 1) / 2)⌋ = 2 ^ (52 : ℕ) := by
    rw [Int.floor_eq_iff]; norm_num
  have hr : roundHalfEven (|((2 : ℚ) ^ (53 : ℕ) + 1)| / 2 ^ (1 : ℤ)) = 2 ^ (52 : ℕ) := by
    rw [abs_of_pos (by positivity), zpow_one]
    unfold roundHalfEven
    rw [hf]
    norm_num
  unfold toDouble
  rw [he, hr]
  norm_num

/-- The successor of an integer from `-2 ^ 53` up to `2 ^ 53 - 1` is computed exactly. -/
theorem numAdd_int_one (n : ℤ) (hlo : -(2 ^ (53 : ℕ)) ≤ n) (hhi : n < 2 ^ (53 : ℕ)) :
    numAdd (.fin (n : ℚ)) (.fin 1) = .fin ((n + 1 : ℤ) : ℚ) := by
  have hcast : ((n : ℚ) + 1) = ((n + 1 : ℤ) : ℚ) := by push_cast; ring
  simp only [numAdd]
  rw [hcast]
  by_cases hb : |n + 1| < 2 ^ (53 : ℕ)
  · exact toDouble_intCast (n + 1) hb
  · have hn : n + 1 = 2 ^ (53 : ℕ) := by
      have h2 : ¬ (-(2 ^ (53 : ℕ)) < n + 1 ∧ n + 1 < 2 ^ (53 : ℕ)) := fun hc => hb (abs_lt.mpr hc)
      omega
    rw [hn]
    push_cast
    exact toDouble_two_pow_53

/-! ## Basic facts about the database layer -/

theorem write_count_links (db : Db) (v : JsVal) :
    (db.write "concerts/concerts_count" v).links = db.links := by
  simp [Db.write]

theorem write_count_revid (db : Db) (v : JsVal) :
    (db.write "concerts/concerts_count" v).revid = db.revid := by
  simp [Db.write]

theorem write_count_count (db : Db) (v : JsVal) :
    (db.write "concerts/concerts_count" v).concerts_count = v := by
  simp [Db.write]

theorem write_revid_eq (db : Db) (v : JsVal) :
    db.write "concerts/revid" v = { db with revid := v } := by
  simp [Db.write]

theorem append_links_eq (db : Db) (v : JsVal) :
    db.append "concerts/links" v = { db with links := db.links ++ [v] } := by
  simp [Db.append]

theorem val_count (db : Db) : db.val "concerts/concerts_count" = db.concerts_count := by
  simp [Db.val]

theorem val_links (db : Db) :
    db.val "concerts/links" = if db.links.isEmpty then .null else .arr db.links := by
  simp [Db.val]

theorem pathRefusal_count (c : Client) : pathRefusal c "concerts/concerts_count" = none := by
  simp [pathRefusal]

/-- A number that the client does not refuse is kept as it is. -/
theorem stored_number (c : Client) (v : JsVal) (hn : typeOf v = "number") :
    stored c v = some v := by
  cases v <;> simp [typeOf] at hn
  rfl

/-- A string is kept as it is. -/
theorem stored_string (c : Client) (s : String) : stored c (.str s) = some (.str s) := rfl

/-- A push changes nothing but the links, and only by adding entries at the end. -/
theorem refPush_frame (c : Client) (o : Remote) (db : Db) (v : JsVal) :
    (∃ added, (refPush c o db "concerts/links" v).db.links = db.links ++ added) ∧
      (refPush c o db "concerts/links" v).db.concerts_count = db.concerts_count ∧
      (refPush c o db "concerts/links" v).db.revid = db.revid := by
  unfold refPush
  cases nullish v with
  | true => exact ⟨⟨[], by simp⟩, rfl, rfl⟩
  | false =>
    cases o with
    | done =>
      cases stored c v with
      | none => exact ⟨⟨[], by simp⟩, rfl, rfl⟩
      | some w =>
        exact ⟨⟨[w], by simp [append_links_eq]⟩, by simp [append_links_eq],
          by simp [append_links_eq]⟩
    | failed e => exact ⟨⟨[], by simp⟩, rfl, rfl⟩

/-- The pushes of `setConcertsLinks` keep the count and the revision id, and extend the links. -/
theorem pushEach_frame (c : Client) (o : Nat → Remote) (xs : List JsVal) :
    ∀ (k : Nat) (db : Db),
      (∃ added, (pushEach c o "concerts/links" k xs db).db.links = db.links ++ added) ∧
      (pushEach c o "concerts/links" k xs db).db.concerts_count = db.concerts_count ∧
      (pushEach c o "concerts/links" k xs db).db.revid = db.revid := by
  induction xs with
  | nil => intro k db; exact ⟨⟨[], by simp [pushEach]⟩, rfl, rfl⟩
  | cons x rest ih =>
    intro k db
    simp only [pushEach]
    cases pushThrows c x with
    | some err => exact ⟨⟨[], by simp⟩, rfl, rfl⟩
    | none =>
      obtain ⟨⟨added, h1⟩, h2, h3⟩ := ih (k + 1) (refPush c (o k) db "concerts/links" x).db
      obtain ⟨⟨first, g1⟩, g2, g3⟩ := refPush_frame c (o k) db x
      refine ⟨⟨first ++ added, ?_⟩, ?_, ?_⟩
      · simp only []
        rw [h1, g1, List.append_assoc]
      · simp only []
        rw [h2, g2]
      · simp only []
        rw [h3, g3]

/-- When no push throws, every element passed the value check. -/
theorem pushEach_not_thrown (c : Client) (o : Nat → Remote) (xs : List JsVal) :
    ∀ (k : Nat) (db : Db), (pushEach c o "concerts/links" k xs db).thrown = none →
      ∀ x ∈ xs, pushThrows c x = none := by
  induction xs with
  | nil => intro k db _ x hx; simp at hx
  | cons y rest ih =>
    intro k db h x hx
    simp only [pushEach] at h
    cases hy : pushThrows c y with
    | some err => simp [hy] at h
    | none =>
      simp only [hy] at h
      rcases List.mem_cons.mp hx with rfl | hx
      · exact hy
      · exact ih _ _ h x hx

/-- When every element passes the value check, no push throws. -/
theorem pushEach_thrown_none (c : Client) (o : Nat → Remote) (xs : List JsVal)
    (hx : ∀ x ∈ xs, pushThrows c x = none) :
    ∀ (k : Nat) (db : Db), (pushEach c o "concerts/links" k xs db).thrown = none := by
  induction xs with
  | nil => intro k db; rfl
  | cons y rest ih =>
    intro k db
    have hy := hx y (List.mem_cons_self _ _)
    simp only [pushEach, hy]
    exact ih (fun z hz => hx z (List.mem_cons_of_mem _ hz)) _ _

/-- When no push throws or is rejected and every element is a value kept as it is, the pushes
append the elements in array order. -/
theorem pushEach_all_done (c : Client) (o : Nat → Remote) (xs : List JsVal)
    (hx : ∀ x ∈ xs, nullish x = false ∧ stored c x = some x) :
    ∀ (k : Nat) (db : Db), (pushEach c o "concerts/links" k xs db).thrown = none →
      (pushEach c o "concerts/links" k xs db).rejected = none →
      (pushEach c o "concerts/links" k xs db).db = { db with links := db.links ++ xs } := by
  induction xs with
  | nil => intro k db _ _; simp [pushEach]
  | cons x rest ih =>
    intro k db ht hr
    have hxn := hx x (List.mem_cons_self _ _)
    have hrest : ∀ y ∈ rest, nullish y = false ∧ stored c y = some y :=
      fun y hy => hx y (List.mem_cons_of_mem _ hy)
    simp only [pushEach] at ht hr ⊢
    cases hp : pushThrows c x with
    | some err => simp [hp] at ht
    | none =>
      simp only [hp] at ht hr ⊢
      cases ho : o k with
      | done =>
        simp only [refPush, hxn.1, hxn.2, ho, append_links_eq] at ht hr ⊢
        rw [ih hrest _ _ ht hr]
        simp
      | failed e =>
        simp [refPush, hxn.1, ho] at hr

/-- When no push throws, the first rejected push decides what `Promise.all` rejects with. -/
theorem pushEach_first_failure (c : Client) (o : Nat → Remote) (e : JsError) (xs : List JsVal)
    (hx : ∀ x ∈ xs, pushThrows c x = none) :
    ∀ (k0 i : Nat) (db : Db), i < xs.length → o (k0 + i) = .failed e →
      nullish (xs.getD i .undefined) = false →
      (∀ j, j < i → o (k0 + j) = .done ∨ nullish (xs.getD j .undefined) = true) →
      (pushEach c o "concerts/links" k0 xs db).rejected = some e := by
  induction xs with
  | nil => intro k0 i db hi; simp at hi
  | cons x rest ih =>
    intro k0 i db hi ho hn hbefore
    have hy := hx x (List.mem_cons_self _ _)
    have hrest : ∀ z ∈ rest, pushThrows c z = none := fun z hz => hx z (List.mem_cons_of_mem _ hz)
    simp only [pushEach, hy]
    cases i with
    | zero =>
      simp only [List.getD_cons_zero] at hn
      simp only [Nat.add_zero] at ho
      simp [refPush, hn, ho]
    | succ i =>
      have hi2 : i < rest.length := by simpa using hi
      have ho2 : o (k0 + 1 + i) = .failed e := by rw [← ho]; congr 1; omega
      have hn2 : nullish (rest.getD i .undefined) = false := by simpa using hn
      have hb2 : ∀ j, j < i → o (k0 + 1 + j) = .done ∨ nullish (rest.getD j .undefined) = true := by
        intro j hj
        have := hbefore (j + 1) (by omega)
        have e1 : k0 + (j + 1) = k0 + 1 + j := by omega
        rw [e1] at this
        simpa using this
      have hrec := fun d => ih hrest (k0 + 1) i d hi2 ho2 hn2 hb2
      have h0 := hbefore 0 (by omega)
      simp only [Nat.add_zero, List.getD_cons_zero] at h0
      rcases h0 with h0 | h0
      · cases hxn : nullish x
        · cases hs : stored c x <;> simp [refPush, hxn, h0, hs, hrec]
        · simp [refPush, hxn, hrec]
      · simp [refPush, h0, hrec]

/-- A push that is made and rejected leaves the pushes with an error, thrown or rejected. -/
theorem pushEach_failure_seen (c : Client) (o : Nat → Remote) (e : JsError) (xs : List JsVal) :
    ∀ (k0 i : Nat) (db : Db), i < xs.length → o (k0 + i) = .failed e →
      nullish (xs.getD i .undefined) = false →
      (∀ j, j ≤ i → pushThrows c (xs.getD j .undefined) = none) →
      (pushEach c o "concerts/links" k0 xs db).thrown ≠ none ∨
        (pushEach c o "concerts/links" k0 xs db).rejected ≠ none := by
  induction xs with
  | nil => intro k0 i db hi; simp at hi
  | cons x rest ih =>
    intro k0 i db hi ho hn hchk
    have hy : pushThrows c x = none := by simpa using hchk 0 (by omega)
    simp only [pushEach, hy]
    cases i with
    | zero =>
      simp only [List.getD_cons_zero] at hn
      simp only [Nat.add_zero] at ho
      right
      simp [refPush, hn, ho]
    | succ i =>
      have hi2 : i < rest.length := by simpa using hi
      have ho2 : o (k0 + 1 + i) = .failed e := by rw [← ho]; congr 1; omega
      have hn2 : nullish (rest.getD i .undefined) = false := by simpa using hn
      have hc2 : ∀ j, j ≤ i → pushThrows c (rest.getD j .undefined) = none := by
        intro j hj
        simpa using hchk (j + 1) (by omega)
      rcases ih (k0 + 1) i (refPush c (o k0) db "concerts/links" x).db hi2 ho2 hn2 hc2 with h | h
      · left; exact h
      · right
        cases (refPush c (o k0) db "concerts/links" x).result with
        | error err => simp
        | ok v => exact h

/-! ## Validation failures -/

/-- The run of `setRevid` on an argument that fails the validation. -/
theorem invalid_setRevid_run (c : Client) (o : Nat → Remote) (db : Db) (id : JsVal)
    (h : truthy id = false ∨ typeOf id ≠ "number") :
    setRevid c o db id =
      { result := .error (mkError "revid must be a valid number"), db := db, calls := [] } := by
  rcases h with h | h <;> simp [setRevid, h]

/-- C1: a call of `setRevid`, `setConcertsLinks`, `addNewConcertLink` or `setCount` whose argument
fails the validation of that function (a falsy or non-number id; a value that is no array, or the
empty array; a falsy or non-string link; a non-number or NaN count) fails with the validation
error of that function, makes no remote call and leaves the database exactly as it was. -/
theorem invalid_argument_fails_before_remote_call
    (rt : Runtime) (c : Client) (o : Nat → Remote) (db : Db) (v : JsVal) :
    ((truthy v = false ∨ typeOf v ≠ "number") →
      setRevid c o db v =
        { result := .error (mkError "revid must be a valid number"), db := db, calls := [] }) ∧
    (((∀ xs, v ≠ .arr xs) ∨ v = .arr []) →
      setConcertsLinks c o db v =
        { result := .error (mkError "concerts/links must be non-empty array"), db := db, calls := [] }) ∧
    ((truthy v = false ∨ typeOf v ≠ "string") →
      addNewConcertLink c o db v =
        { result := .error (mkError "concertLink must be a valid string"), db := db, calls := [] }) ∧
    ((typeOf v ≠ "number" ∨ v = .num .nan) →
      setCount rt c o db v =
        { result := .error (mkError "Count must be a valid number"), db := db, calls := [] }) := by
  refine ⟨?_, ?_, ?_, ?_⟩
  · intro h
    rcases h with h | h <;> simp [setRevid, h]
  · intro h
    rcases h with h | h
    · cases v with
      | arr xs => exact absurd rfl (h xs)
      | _ => simp [setConcertsLinks, isArray]
    · subst h
      simp [setConcertsLinks, isArray, elements]
  · intro h
    rcases h with h | h <;> simp [addNewConcertLink, h]
  · intro h
    rcases h with h | h
    · simp [setCount, h]
    · subst h
      simp [setCount, isNaN, toNumber]

/-- Instances of C1: `setRevid(0)`, `setConcertsLinks([])`, `addNewConcertLink("")` and
`setCount(NaN)` on a database with one link. -/
theorem invalid_argument_fails_before_remote_call_witness :
    setRevid sampleClient (fun _ => .done) ⟨[.str "a"], .num (.fin 1), .null⟩ (.num (.fin 0)) =
        { result := .error (mkError "revid must be a valid number"),
          db := ⟨[.str "a"], .num (.fin 1), .null⟩, calls := [] } ∧
      setConcertsLinks sampleClient (fun _ => .done) ⟨[.str "a"], .num (.fin 1), .null⟩ (.arr []) =
        { result := .error (mkError "concerts/links must be non-empty array"),
          db := ⟨[.str "a"], .num (.fin 1), .null⟩, calls := [] } ∧
      addNewConcertLink sampleClient (fun _ => .done) ⟨[.str "a"], .num (.fin 1), .null⟩
          (.str "") =
        { result := .error (mkError "concertLink must be a valid string"),
          db := ⟨[.str "a"], .num (.fin 1), .null⟩, calls := [] } ∧
      setCount sampleRuntime sampleClient (fun _ => .done)
          ⟨[.str "a"], .num (.fin 1), .null⟩ (.num .nan) =
        { result := .error (mkError "Count must be a valid number"),
          db := ⟨[.str "a"], .num (.fin 1), .null⟩, calls := [] } :=
  ⟨(invalid_argument_fails_before_remote_call sampleRuntime sampleClient (fun _ => .done)
      ⟨[.str "a"], .num (.fin 1), .null⟩ (.num (.fin 0))).1 (Or.inl (by simp [truthy])),
   (invalid_argument_fails_before_remote_call sampleRuntime sampleClient (fun _ => .done)
      ⟨[.str "a"], .num (.fin 1), .null⟩ (.arr [])).2.1 (Or.inr rfl),
   (invalid_argument_fails_before_remote_call sampleRuntime sampleClient (fun _ => .done)
      ⟨[.str "a"], .num (.fin 1), .null⟩ (.str "")).2.2.1 (Or.inl (by simp [truthy])),
   (invalid_argument_fails_before_remote_call sampleRuntime sampleClient (fun _ => .done)
      ⟨[.str "a"], .num (.fin 1), .null⟩ (.num .nan)).2.2.2 (Or.inr rfl)⟩

/-! ## The counter -/

/-- The sum `x + 1` is never `undefined`. -/
theorem jsAdd_ne_undefined (rt : Runtime) (x y : JsVal) : jsAdd rt x y ≠ .undefined := by
  unfold jsAdd
  split <;> simp

/-- The transaction of `updateCount` never touches the links or the revision id. -/
theorem refTransaction_frame (c : Client) (o : Remote) (db : Db) (f : JsVal → JsVal) :
    (refTransaction c o db "concerts/concerts_count" f).db.links = db.links ∧
      (refTransaction c o db "concerts/concerts_count" f).db.revid = db.revid := by
  unfold refTransaction
  split
  · exact ⟨rfl, rfl⟩
  · split
    · exact ⟨rfl, rfl⟩
    · cases o with
      | failed e => exact ⟨rfl, rfl⟩
      | done => exact ⟨by simp [write_count_links], by simp [write_count_revid]⟩

/-- The database after `updateCount`. -/
theorem updateCount_db (rt : Runtime) (c : Client) (o : Nat → Remote) (db : Db) :
    (updateCount rt c o db).db =
      (refTransaction c (o 0) db "concerts/concerts_count"
        (fun currentValue => jsAdd rt (jsOr currentValue (.num (.fin 0))) (.num (.fin 1)))).db := by
  unfold updateCount
  simp only []
  split <;> rfl

/-- The transaction of `updateCount` on a stored value whose successor is the finite number
`q`. -/
theorem updateCount_number (rt : Runtime) (c : Client) (o : Nat → Remote) (db : Db) (q : ℚ)
    (hq : jsAdd rt (jsOr db.concerts_count (.num (.fin 0))) (.num (.fin 1)) = .num (.fin q)) :
    updateCount rt c o db =
      match o 0 with
      | .done =>
        { result := .ok .undefined, db := db.write "concerts/concerts_count" (.num (.fin q)),
          calls := [.transaction "concerts/concerts_count"] }
      | .failed e =>
        { result := .error e, db := db, calls := [.transaction "concerts/concerts_count"] } := by
  unfold updateCount refTransaction
  simp only [val_count, hq, refusal, stored]
  cases o 0 <;> rfl

/-- The value the transaction computes from a stored integer from `-2 ^ 53` up to
`2 ^ 53 - 1`. -/
theorem successor_of_int (rt : Runtime) (n : ℤ) (hlo : -(2 ^ (53 : ℕ)) ≤ n)
    (hhi : n < 2 ^ (53 : ℕ)) :
    jsAdd rt (jsOr (.num (.fin (n : ℚ))) (.num (.fin 0))) (.num (.fin 1)) =
      .num (.fin ((n + 1 : ℤ) : ℚ)) := by
  by_cases h0 : (n : ℚ) = 0
  · have hn : n = 0 := by exact_mod_cast h0
    subst hn
    have := numAdd_int_one 0 (by norm_num) (by norm_num)
    simpa [jsOr, truthy, jsAdd, stringish, toNumber] using this
  · have := numAdd_int_one n hlo hhi
    simpa [jsOr, truthy, h0, jsAdd, stringish, toNumber] using this

/-- The value the transaction computes when nothing is stored. -/
theorem successor_of_null (rt : Runtime) :
    jsAdd rt (jsOr .null (.num (.fin 0))) (.num (.fin 1)) = .num (.fin 1) := by
  have := numAdd_int_one 0 (by norm_num) (by norm_num)
  simpa [jsOr, truthy, jsAdd, stringish, toNumber] using this

/-- C2, refuted as stated: with the integer `2 ^ 53` stored, a successful `updateCount` leaves
`2 ^ 53` in `concerts/concerts_count`, not `2 ^ 53 + 1`: the sum is rounded to a double. -/
theorem updateCount_at_two_pow_53_keeps_count :
    (updateCount sampleRuntime sampleClient (fun _ => .done)
        ⟨[.str "a"], .num (.fin (((2 : ℤ) ^ (53 : ℕ) : ℤ) : ℚ)), .null⟩).result = .ok .undefined ∧
      (updateCount sampleRuntime sampleClient (fun _ => .done)
        ⟨[.str "a"], .num (.fin (((2 : ℤ) ^ (53 : ℕ) : ℤ) : ℚ)), .null⟩).db.concerts_count
          = .num (.fin (((2 : ℤ) ^ (53 : ℕ) : ℤ) : ℚ)) ∧
      (updateCount sampleRuntime sampleClient (fun _ => .done)
        ⟨[.str "a"], .num (.fin (((2 : ℤ) ^ (53 : ℕ) : ℤ) : ℚ)), .null⟩).db.concerts_count
          ≠ .num (.fin (((2 : ℤ) ^ (53 : ℕ) + 1 : ℤ) : ℚ)) := by
  have hq : jsAdd sampleRuntime
      (jsOr (.num (.fin (((2 : ℤ) ^ (53 : ℕ) : ℤ) : ℚ))) (.num (.fin 0))) (.num (.fin 1))
      = .num (.fin (((2 : ℤ) ^ (53 : ℕ) : ℤ) : ℚ)) := by
    have h := toDouble_two_pow_53_add_one
    have hcast : (((2 : ℤ) ^ (53 : ℕ) : ℤ) : ℚ) = (2 : ℚ) ^ (53 : ℕ) := by push_cast; rfl
    rw [hcast]
    have hne : ((2 : ℚ) ^ (53 : ℕ)) ≠ 0 := by positivity
    simp only [jsOr, truthy, ne_eq, hne, not_false_eq_true, decide_True, if_true, jsAdd, stringish,
      Bool.or_self, Bool.false_eq_true, if_false, toNumber, numAdd]
    rw [h]
  rw [updateCount_number sampleRuntime sampleClient (fun _ => .done) _ _ hq]
  refine ⟨rfl, by simp [write_count_count], ?_⟩
  simp only [write_count_count, ne_eq, JsVal.num.injEq, JsNum.fin.injEq]
  norm_num

/-- C2, amended: a successful `updateCount` increments the counter at `concerts/concerts_count`
by exactly one when the stored value is an integer `n` with `-2 ^ 53 ≤ n < 2 ^ 53`, which becomes
`n + 1`, and when no value is stored (`null`), which becomes `1`; the links and the revision id
are unchanged for every stored value. -/
theorem updateCount_increments_safe_integer (rt : Runtime) (c : Client) (o : Nat → Remote)
    (db : Db) (u : JsVal) (h : (updateCount rt c o db).result = .ok u) :
    (∀ n : ℤ, -(2 ^ (53 : ℕ)) ≤ n → n < 2 ^ (53 : ℕ) → db.concerts_count = .num (.fin (n : ℚ)) →
        (updateCount rt c o db).db.concerts_count = .num (.fin ((n + 1 : ℤ) : ℚ))) ∧
      (db.concerts_count = .null → (updateCount rt c o db).db.concerts_count = .num (.fin 1)) ∧
      (updateCount rt c o db).db.links = db.links ∧
      (updateCount rt c o db).db.revid = db.revid := by
  refine ⟨?_, ?_, ?_, ?_⟩
  · intro n hlo hhi hc
    have hq := successor_of_int rt n hlo hhi
    rw [← hc] at hq
    rw [updateCount_number rt c o db _ hq] at h ⊢
    cases ho : o 0 with
    | done => simp [write_count_count]
    | failed e => simp [ho] at h
  · intro hc
    have hq := successor_of_null rt
    rw [← hc] at hq
    rw [updateCount_number rt c o db _ hq] at h ⊢
    cases ho : o 0 with
    | done => simp [write_count_count]
    | failed e => simp [ho] at h
  · rw [updateCount_db, (refTransaction_frame _ _ _ _).1]
  · rw [updateCount_db, (refTransaction_frame _ _ _ _).2]

/-- An instance of C2 as amended: a counter holding 3 is advanced to 4. -/
theorem updateCount_increments_safe_integer_witness :
    (updateCount sampleRuntime sampleClient (fun _ => .done)
        ⟨[.str "a"], .num (.fin ((3 : ℤ) : ℚ)), .null⟩).db.concerts_count
      = .num (.fin (((3 : ℤ) + 1 : ℤ) : ℚ)) :=
  (updateCount_increments_safe_integer sampleRuntime sampleClient (fun _ => .done)
    ⟨[.str "a"], .num (.fin ((3 : ℤ) : ℚ)), .null⟩ .undefined
    (by rw [updateCount_number sampleRuntime sampleClient (fun _ => .done) _ _
          (successor_of_int sampleRuntime 3 (by norm_num) (by norm_num))])).1 3
    (by norm_num) (by norm_num) rfl

/-! ## The random concert -/

/-- Indexing an array with a number that is no index of it gives `undefined`. -/
theorem getIndex_arr_invalid (rt : Runtime) (xs : List JsVal) (k : JsNum)
    (h : validIndex k xs.length = false) : getIndex rt (.arr xs) k = .ok .undefined := by
  cases k with
  | fin q =>
    simp only [validIndex, decide_eq_false_iff_not] at h
    simp only [getIndex]
    split
    · rename_i hq
      have hlen : xs.length ≤ q.num.toNat := by
        by_contra hc
        exact h ⟨hq.1, hq.2, by omega⟩
      rw [List.getD_eq_default _ _ hlen]
    · rfl
  | nan => rfl
  | posInf => rfl
  | negInf => rfl

/-- The run of `getRandConcert` when both reads complete and the links are not empty. -/
theorem getRandConcert_done (rt : Runtime) (c : Client) (o : Nat → Remote) (db : Db)
    (random : ℚ) (maxCount : JsVal) (h0 : o 0 = .done) (h1 : o 1 = .done) (hl : db.links ≠ [])
    (hp : getProp (db.val "concerts/concerts_count") "concerts_count" = .ok maxCount) :
    (getRandConcert rt c o db random).result =
      getIndex rt (.arr db.links) (getRandomInt rt random maxCount) := by
  have hv : db.val "concerts/links" = .arr db.links := by
    rw [val_links]
    cases hd : db.links with
    | nil => exact absurd hd hl
    | cons x xs => rfl
  simp only [getRandConcert, getData, pathRefusal_count, refOnce, h0, h1, hp, hv]
  cases getIndex rt (.arr db.links) (getRandomInt rt random maxCount) <;> rfl

/-- `getRandConcert` only reads. -/
theorem getRandConcert_db (rt : Runtime) (c : Client) (o : Nat → Remote) (db : Db)
    (random : ℚ) : (getRandConcert rt c o db random).db = db := by
  unfold getRandConcert getData refOnce
  simp only [pathRefusal_count]
  cases o 0 <;> simp only []
  · cases getProp (db.val "concerts/concerts_count") "concerts_count" <;> simp only []
    cases o 1 <;> simp only []
    · split <;> rfl

/-- The product `1/2 * 3` is the double `3/2`. -/
theorem toDouble_three_halves : toDouble ((1 : ℚ) / 2 * 3) = .fin (3 / 2) := by
  have h := toDouble_of_binade ((1 : ℚ) / 2 * 3) 0 (3 * 2 ^ (51 : ℕ)) (by norm_num) (by norm_num)
    (by norm_num) (by norm_num) (by norm_num) (by norm_num [zpow_neg])
  rw [h]
  norm_num

/-- The product `9/10 * 5` is the double `9/2`. -/
theorem toDouble_nine_halves : toDouble ((9 : ℚ) / 10 * 5) = .fin (9 / 2) := by
  have h := toDouble_of_binade ((9 : ℚ) / 10 * 5) 2 (9 * 2 ^ (49 : ℕ)) (by norm_num) (by norm_num)
    (by norm_num) (by norm_num) (by norm_num) (by norm_num [zpow_neg])
  rw [h]
  norm_num

/-- C3, the code at a failing input: with the links `a, b, c`, the count 3 and the draw 1/2, the
index the claim describes is `floor(1/2 * 3) = 1` and the entry there is `b`, but
`getRandConcert` takes the property `concerts_count` of the number it has read, which is
`undefined`, and returns `undefined`. -/
theorem getRandConcert_count_three_returns_undefined (rt : Runtime) (c : Client) :
    (getRandConcert rt c (fun _ => .done)
        ⟨[.str "a", .str "b", .str "c"], .num (.fin 3), .null⟩ (1 / 2)).result = .ok .undefined ∧
      getProp (.num (.fin 3)) "concerts_count" = .ok .undefined ∧
      getRandomInt rt (1 / 2) (.num (.fin 3)) = .fin 1 ∧
      getIndex rt (.arr [.str "a", .str "b", .str "c"]) (.fin 1) = .ok (.str "b") := by
  refine ⟨?_, rfl, ?_, ?_⟩
  · rw [getRandConcert_done rt c _ _ _ .undefined rfl rfl (by simp) (by simp [Db.val, getProp])]
    simp [getRandomInt, toNumber, numMul, mathFloor, getIndex]
  · have h : ⌊(3 / 2 : ℚ)⌋ = 1 := by rw [Int.floor_eq_iff]; norm_num
    simp only [getRandomInt, toNumber, numMul, toDouble_three_halves, mathFloor, h]
    norm_num
  · simp [getIndex]

/-- C7: there are a database and a draw (one link, the count 5, the draw 9/10) for which the
index derived by `getRandConcert` is no index of the links it reads, and whenever that is so for
a non-empty list and completed reads, `getRandConcert` returns `undefined` without an error. -/
theorem getRandConcert_out_of_range_undefined :
    (∃ (db : Db) (random n : ℚ), 0 ≤ random ∧ random < 1 ∧ db.links ≠ [] ∧
        db.concerts_count = .num (.fin n) ∧ (db.links.length : ℚ) < n ∧
        ∀ (rt : Runtime) (c : Client), ∃ maxCount,
          getProp (db.val "concerts/concerts_count") "concerts_count" = .ok maxCount ∧
          validIndex (getRandomInt rt random maxCount) db.links.length = false ∧
          (getRandConcert rt c (fun _ => .done) db random).result = .ok .undefined) ∧
      (∀ (rt : Runtime) (c : Client) (o : Nat → Remote) (db : Db) (random : ℚ)
          (maxCount : JsVal),
        o 0 = .done → o 1 = .done → db.links ≠ [] →
        getProp (db.val "concerts/concerts_count") "concerts_count" = .ok maxCount →
        validIndex (getRandomInt rt random maxCount) db.links.length = false →
        (getRandConcert rt c o db random).result = .ok .undefined) := by
  have key : ∀ (rt : Runtime) (c : Client) (o : Nat → Remote) (db : Db) (random : ℚ)
      (maxCount : JsVal),
      o 0 = .done → o 1 = .done → db.links ≠ [] →
      getProp (db.val "concerts/concerts_count") "concerts_count" = .ok maxCount →
      validIndex (getRandomInt rt random maxCount) db.links.length = false →
      (getRandConcert rt c o db random).result = .ok .undefined := by
    intro rt c o db random maxCount h0 h1 hl hp hv
    rw [getRandConcert_done rt c o db random maxCount h0 h1 hl hp]
    exact getIndex_arr_invalid rt db.links _ hv
  refine ⟨⟨⟨[.str "a"], .num (.fin 5), .null⟩, 9 / 10, 5, by norm_num, by norm_num, by simp, rfl,
    by norm_num, ?_⟩, key⟩
  intro rt c
  have hp : getProp ((⟨[.str "a"], .num (.fin 5), .null⟩ : Db).val "concerts/concerts_count")
      "concerts_count" = .ok .undefined := by simp [Db.val, getProp]
  have hv : validIndex (getRandomInt rt (9 / 10) .undefined)
      (⟨[.str "a"], .num (.fin 5), .null⟩ : Db).links.length = false := by
    simp [getRandomInt, toNumber, numMul, mathFloor, validIndex]
  exact ⟨.undefined, hp, hv, key rt c _ _ _ _ rfl rfl (by simp) hp hv⟩

/-- An instance of C7 with an integer index: the count is stored as an object with the field
`concerts_count = 5`, there is one link and the draw is 9/10, so the index is 4. -/
theorem getRandConcert_out_of_range_undefined_witness :
    getRandomInt sampleRuntime (9 / 10) (.num (.fin 5)) = .fin 4 ∧
      (getRandConcert sampleRuntime sampleClient (fun _ => .done)
        ⟨[.str "a"], .obj [("concerts_count", .num (.fin 5))], .null⟩
        (9 / 10)).result = .ok .undefined := by
  have hf : ⌊(9 / 2 : ℚ)⌋ = 4 := by rw [Int.floor_eq_iff]; norm_num
  have hi : getRandomInt sampleRuntime (9 / 10) (.num (.fin 5)) = .fin 4 := by
    simp only [getRandomInt, toNumber, numMul, toDouble_nine_halves, mathFloor, hf]
    norm_num
  refine ⟨hi, ?_⟩
  exact getRandConcert_out_of_range_undefined.2 sampleRuntime sampleClient (fun _ => .done)
    ⟨[.str "a"], .obj [("concerts_count", .num (.fin 5))], .null⟩ (9 / 10) (.num (.fin 5))
    rfl rfl (by simp) (by simp [Db.val, getProp, List.lookup])
    (by rw [hi]; simp [validIndex])

/-! ## The revision id -/

/-- The run of `setRevid` on an argument that passes the validation. -/
theorem setRevid_valid (c : Client) (o : Nat → Remote) (db : Db) (id : JsVal)
    (ht : truthy id = true) (hn : typeOf id = "number") :
    setRevid c o db id =
      match refusal c "set" id with
      | some err =>
        { result := .error (mkError ("Failed to set revid: " ++ err.message)), db := db,
          calls := [] }
      | none =>
        match o 0 with
        | .done =>
          { result := .ok .undefined, db := { db with revid := id },
            calls := [.set "concerts/revid" id] }
        | .failed e =>
          { result := .error (mkError ("Failed to set revid: " ++ e.message)), db := db,
            calls := [.set "concerts/revid" id] } := by
  unfold setRevid refSet
  rw [stored_number c id hn]
  cases refusal c "set" id with
  | some err => simp [ht, hn]
  | none => cases o 0 <;> simp [ht, hn, write_revid_eq]

/-- C6: for an id that passes the validation, a successful `setRevid(id)` leaves
`concerts/revid` equal to `id`, whatever was stored before, and leaves the links and the count
unchanged. -/
theorem setRevid_overwrites_revid_only (c : Client) (o : Nat → Remote) (db : Db) (id u : JsVal)
    (ht : truthy id = true) (hn : typeOf id = "number")
    (h : (setRevid c o db id).result = .ok u) :
    (setRevid c o db id).db.revid = id ∧
      (setRevid c o db id).db.links = db.links ∧
      (setRevid c o db id).db.concerts_count = db.concerts_count := by
  rw [setRevid_valid c o db id ht hn] at h ⊢
  cases hr : refusal c "set" id with
  | some err => simp [hr] at h
  | none =>
    cases ho : o 0 with
    | done => simp
    | failed e => simp [hr, ho] at h

/-- An instance of C6: `setRevid(7)` over a stored revision id 3. -/
theorem setRevid_overwrites_revid_only_witness :
    (setRevid sampleClient (fun _ => .done) ⟨[.str "a"], .num (.fin 2), .num (.fin 3)⟩
        (.num (.fin 7))).db.revid = .num (.fin 7) ∧
      (setRevid sampleClient (fun _ => .done) ⟨[.str "a"], .num (.fin 2), .num (.fin 3)⟩
        (.num (.fin 7))).db.links = [.str "a"] ∧
      (setRevid sampleClient (fun _ => .done) ⟨[.str "a"], .num (.fin 2), .num (.fin 3)⟩
        (.num (.fin 7))).db.concerts_count = .num (.fin 2) :=
  setRevid_overwrites_revid_only sampleClient (fun _ => .done)
    ⟨[.str "a"], .num (.fin 2), .num (.fin 3)⟩ (.num (.fin 7)) .undefined (by simp [truthy]) rfl
    (by rw [setRevid_valid sampleClient (fun _ => .done)
          ⟨[.str "a"], .num (.fin 2), .num (.fin 3)⟩ (.num (.fin 7)) (by simp [truthy]) rfl]; rfl)

/-! ## The links -/

/-- The database after `setConcertsLinks`: the one before, or the one the pushes leave. -/
theorem setConcertsLinks_db (c : Client) (o : Nat → Remote) (db : Db) (v : JsVal) :
    (setConcertsLinks c o db v).db = db ∨
      (setConcertsLinks c o db v).db = (pushEach c o "concerts/links" 0 (elements v) db).db := by
  unfold setConcertsLinks
  split
  · left; rfl
  · right
    simp only []
    split
    · rfl
    · split <;> rfl

/-- The database after `addNewConcertLink`: the one before, or the one the push leaves. -/
theorem addNewConcertLink_db (c : Client) (o : Nat → Remote) (db : Db) (v : JsVal) :
    (addNewConcertLink c o db v).db = db ∨
      (addNewConcertLink c o db v).db = (refPush c (o 0) db "concerts/links" v).db := by
  unfold addNewConcertLink
  split
  · left; rfl
  · split
    · left; rfl
    · right
      simp only []
      split <;> rfl

/-- The database after `setRevid` keeps the links. -/
theorem setRevid_links (c : Client) (o : Nat → Remote) (db : Db) (v : JsVal) :
    (setRevid c o db v).db.links = db.links := by
  unfold setRevid refSet
  split
  · rfl
  · cases refusal c "set" v with
    | some err => rfl
    | none => cases o 0 <;> simp [write_revid_eq]

/-- The database after `setCount` keeps the links. -/
theorem setCount_links (rt : Runtime) (c : Client) (o : Nat → Remote) (db : Db) (v : JsVal) :
    (setCount rt c o db v).db.links = db.links := by
  unfold setCount refSet
  split
  · rfl
  · cases refusal c "set" v with
    | some err => rfl
    | none => cases o 0 <;> simp [write_count_links]

/-- The database after `getData` is the one before. -/
theorem getData_db (c : Client) (o : Nat → Remote) (db : Db) (path : String) :
    (getData c o db path).db = db := by
  unfold getData refOnce
  cases pathRefusal c path with
  | some err => rfl
  | none => cases o 0 <;> rfl

/-- C5: `concerts/links` is append-only: for each of the eight exported operations, every
argument, every database and every outcome of the remote calls, the links stored before the
call are an initial segment of the links stored after it. -/
theorem links_append_only (rt : Runtime) (c : Client) (o : Nat → Remote) (db : Db) (v : JsVal)
    (path : String) (random : ℚ) :
    db.links <+: (getData c o db path).db.links ∧
      db.links <+: (setRevid c o db v).db.links ∧
      db.links <+: (setConcertsLinks c o db v).db.links ∧
      db.links <+: (addNewConcertLink c o db v).db.links ∧
      db.links <+: (getRandConcert rt c o db random).db.links ∧
      db.links <+: (updateCount rt c o db).db.links ∧
      db.links <+: (getCount o db).db.links ∧
      db.links <+: (setCount rt c o db v).db.links := by
  refine ⟨?_, ?_, ?_, ?_, ?_, ?_, ?_, ?_⟩
  · rw [getData_db]
  · rw [setRevid_links]
  · rcases setConcertsLinks_db c o db v with h | h
    · rw [h]
    · obtain ⟨⟨added, ha⟩, _, _⟩ := pushEach_frame c o (elements v) 0 db
      rw [h, ha]
      exact List.prefix_append _ _
  · rcases addNewConcertLink_db c o db v with h | h
    · rw [h]
    · obtain ⟨⟨added, ha⟩, _, _⟩ := refPush_frame c (o 0) db v
      rw [h, ha]
      exact List.prefix_append _ _
  · rw [getRandConcert_db]
  · rw [updateCount_db, (refTransaction_frame _ _ _ _).1]
  · unfold getCount refOnce
    cases o 0 <;> exact List.prefix_refl _
  · rw [setCount_links]

/-- The run of `addNewConcertLink` on an argument that passes the validation. -/
theorem addNewConcertLink_valid (c : Client) (o : Nat → Remote) (db : Db) (link : JsVal)
    (ht : truthy link = true) (hs : typeOf link = "string") :
    addNewConcertLink c o db link =
      match pushThrows c link with
      | some err =>
        { result := .error (mkError ("Failed to add new concert link: " ++ err.message)),
          db := db, calls := [] }
      | none =>
        match o 0 with
        | .done =>
          { result := .ok .undefined, db := { db with links := db.links ++ [link] },
            calls := [.push "concerts/links" link] }
        | .failed e =>
          { result := .error (mkError ("Failed to add new concert link: " ++ e.message)),
            db := db, calls := [.push "concerts/links" link] } := by
  cases link <;> simp [typeOf] at hs
  rename_i s
  unfold addNewConcertLink refPush
  cases pushThrows c (.str s) with
  | some err => simp [ht, typeOf]
  | none => cases o 0 <;> simp [ht, typeOf, nullish, stored, append_links_eq]

/-- C9, the code at a failing input: `setConcertsLinks([42])` passes the validation (a non-empty
array), succeeds and stores the number 42 after the string `a`, although `addNewConcertLink`
rejects the same value for not being a string. -/
theorem setConcertsLinks_stores_a_number (c : Client) :
    setConcertsLinks c (fun _ => .done) ⟨[.str "a"], .null, .null⟩ (.arr [.num (.fin 42)]) =
        { result := .ok .undefined, db := ⟨[.str "a", .num (.fin 42)], .null, .null⟩,
          calls := [.push "concerts/links" (.num (.fin 42))] } ∧
      typeOf (.num (.fin 42)) ≠ "string" ∧
      addNewConcertLink c (fun _ => .done) ⟨[.str "a"], .null, .null⟩ (.num (.fin 42)) =
        { result := .error (mkError "concertLink must be a valid string"),
          db := ⟨[.str "a"], .null, .null⟩, calls := [] } := by
  refine ⟨rfl, by simp [typeOf], ?_⟩
  simp [addNewConcertLink, typeOf]

/-- Adding valid links that the client accepts one by one appends them in order. -/
theorem addEachInOrder_valid (c : Client) (ys : List JsVal)
    (hy : ∀ y ∈ ys, truthy y = true ∧ typeOf y = "string" ∧ pushThrows c y = none) :
    ∀ db : Db, addEachInOrder c db ys = .ok { db with links := db.links ++ ys } := by
  induction ys with
  | nil => intro db; simp [addEachInOrder]
  | cons y rest ih =>
    intro db
    have h1 := hy y (List.mem_cons_self _ _)
    have hrest : ∀ z ∈ rest, truthy z = true ∧ typeOf z = "string" ∧ pushThrows c z = none :=
      fun z hz => hy z (List.mem_cons_of_mem _ hz)
    simp only [addEachInOrder]
    rw [addNewConcertLink_valid c _ db y h1.1 h1.2.1, h1.2.2]
    simp only []
    rw [ih hrest]
    simp

/-- The run of `setConcertsLinks` on a non-empty array. -/
theorem setConcertsLinks_valid (c : Client) (o : Nat → Remote) (db : Db) (xs : List JsVal)
    (hne : xs ≠ []) :
    setConcertsLinks c o db (.arr xs) =
      match (pushEach c o "concerts/links" 0 xs db).thrown with
      | some error =>
        { result := .error (mkError ("Failed to set concertsLinks: " ++ error.message)),
          db := (pushEach c o "concerts/links" 0 xs db).db,
          calls := (pushEach c o "concerts/links" 0 xs db).calls }
      | none =>
        match (pushEach c o "concerts/links" 0 xs db).rejected with
        | some error =>
          { result := .error (mkError ("Failed to set concertsLinks: " ++ error.message)),
            db := (pushEach c o "concerts/links" 0 xs db).db,
            calls := (pushEach c o "concerts/links" 0 xs db).calls }
        | none =>
          { result := .ok .undefined, db := (pushEach c o "concerts/links" 0 xs db).db,
            calls := (pushEach c o "concerts/links" 0 xs db).calls } := by
  have hl : xs.length ≠ 0 := by
    intro h
    exact hne (List.length_eq_zero.mp h)
  simp [setConcertsLinks, isArray, elements, hl]

/-- C10: for a non-empty array `xs` of non-empty strings, a successful `setConcertsLinks(xs)`
ends in the same database as calling `addNewConcertLink` on each element of `xs` in array order:
the links become the old list followed by the elements of `xs` in order, and the count and the
revision id keep their values. -/
theorem setConcertsLinks_same_as_adding_each (c : Client) (o : Nat → Remote) (db : Db)
    (xs : List String) (u : JsVal) (hne : xs ≠ []) (hs : ∀ s ∈ xs, s ≠ "")
    (h : (setConcertsLinks c o db (.arr (xs.map .str))).result = .ok u) :
    addEachInOrder c db (xs.map .str) = .ok (setConcertsLinks c o db (.arr (xs.map .str))).db ∧
      (setConcertsLinks c o db (.arr (xs.map .str))).db.links = db.links ++ xs.map .str ∧
      (setConcertsLinks c o db (.arr (xs.map .str))).db.concerts_count = db.concerts_count ∧
      (setConcertsLinks c o db (.arr (xs.map .str))).db.revid = db.revid := by
  have hne2 : xs.map JsVal.str ≠ [] := by simpa using hne
  have hkept : ∀ y ∈ xs.map JsVal.str, nullish y = false ∧ stored c y = some y := by
    intro y hy
    obtain ⟨s, _, rfl⟩ := List.mem_map.mp hy
    exact ⟨rfl, rfl⟩
  rw [setConcertsLinks_valid c o db _ hne2] at h ⊢
  cases ht : (pushEach c o "concerts/links" 0 (xs.map JsVal.str) db).thrown with
  | some e => simp [ht] at h
  | none =>
    cases hr : (pushEach c o "concerts/links" 0 (xs.map JsVal.str) db).rejected with
    | some e => simp [ht, hr] at h
    | none =>
      have hchk := pushEach_not_thrown c o _ 0 db ht
      have hvalid : ∀ y ∈ xs.map JsVal.str,
          truthy y = true ∧ typeOf y = "string" ∧ pushThrows c y = none := by
        intro y hy
        have hc := hchk y hy
        obtain ⟨s, hsx, rfl⟩ := List.mem_map.mp hy
        exact ⟨by simpa [truthy] using hs s hsx, rfl, hc⟩
      have hdb := pushEach_all_done c o _ hkept 0 db ht hr
      simp only []
      rw [hdb]
      exact ⟨addEachInOrder_valid c _ hvalid db, rfl, rfl, rfl⟩

/-- An instance of C10: the links `b, c` added to a database holding `a`. -/
theorem setConcertsLinks_same_as_adding_each_witness :
    addEachInOrder sampleClient ⟨[.str "a"], .num (.fin 1), .null⟩ (["b", "c"].map .str) =
        .ok (setConcertsLinks sampleClient (fun _ => .done) ⟨[.str "a"], .num (.fin 1), .null⟩
          (.arr (["b", "c"].map .str))).db ∧
      (setConcertsLinks sampleClient (fun _ => .done) ⟨[.str "a"], .num (.fin 1), .null⟩
          (.arr (["b", "c"].map .str))).db.links = [.str "a"] ++ ["b", "c"].map .str ∧
      (setConcertsLinks sampleClient (fun _ => .done) ⟨[.str "a"], .num (.fin 1), .null⟩
          (.arr (["b", "c"].map .str))).db.concerts_count = .num (.fin 1) ∧
      (setConcertsLinks sampleClient (fun _ => .done) ⟨[.str "a"], .num (.fin 1), .null⟩
          (.arr (["b", "c"].map .str))).db.revid = .null :=
  setConcertsLinks_same_as_adding_each sampleClient (fun _ => .done)
    ⟨[.str "a"], .num (.fin 1), .null⟩ ["b", "c"] .undefined (by simp) (by simp) rfl

/-! ## Validation of the revision id -/

/-- A value is falsy or no number exactly when it is no number, NaN or zero. -/
theorem revid_invalid_iff (id : JsVal) :
    (truthy id = false ∨ typeOf id ≠ "number") ↔
      (typeOf id ≠ "number" ∨ id = .num .nan ∨ id = .num (.fin 0)) := by
  cases id with
  | num n => cases n <;> simp [truthy, typeOf]
  | _ => simp [typeOf]

/-- The error that wraps a failed write is never the validation error. -/
theorem wrapped_ne_validation (m : String) :
    mkError ("Failed to set revid: " ++ m) ≠ mkError "revid must be a valid number" := by
  intro h
  have h1 : ("Failed to set revid: " ++ m) = "revid must be a valid number" :=
    congrArg JsError.message h
  have h2 := congrArg String.data h1
  simp [String.data_append] at h2

/-- C8, refuted as stated: zero is of type number and is not NaN, yet `setRevid(0)` fails with
`revid must be a valid number`, makes no remote call and writes nothing. -/
theorem setRevid_zero_is_rejected :
    typeOf (.num (.fin 0)) = "number" ∧ JsVal.num (.fin 0) ≠ .num .nan ∧
      setRevid sampleClient (fun _ => .done) ⟨[], .null, .num (.fin 5)⟩ (.num (.fin 0)) =
        { result := .error (mkError "revid must be a valid number"),
          db := ⟨[], .null, .num (.fin 5)⟩, calls := [] } ∧
      ¬ ((setRevid sampleClient (fun _ => .done) ⟨[], .null, .num (.fin 5)⟩
            (.num (.fin 0))).result = .error (mkError "revid must be a valid number") ↔
          (typeOf (.num (.fin 0)) ≠ "number" ∨ JsVal.num (.fin 0) = .num .nan)) := by
  have hrun : setRevid sampleClient (fun _ => .done) ⟨[], .null, .num (.fin 5)⟩ (.num (.fin 0)) =
      { result := .error (mkError "revid must be a valid number"),
        db := ⟨[], .null, .num (.fin 5)⟩, calls := [] } := by
    simp [setRevid, truthy]
  refine ⟨rfl, by simp, hrun, ?_⟩
  rw [hrun]
  simp [typeOf]

/-- C8, amended: `setRevid(id)` fails with `revid must be a valid number` if and only if `id` is
not of type number, is NaN or is zero; every other number passes the validation: a finite one is
sent and, when the write completes, is what `concerts/revid` holds afterwards, and whenever the
call succeeds the id was sent and is what `concerts/revid` holds. -/
theorem setRevid_validation_iff (c : Client) (o : Nat → Remote) (db : Db) (id : JsVal) :
    ((setRevid c o db id).result = .error (mkError "revid must be a valid number") ↔
        (typeOf id ≠ "number" ∨ id = .num .nan ∨ id = .num (.fin 0))) ∧
      (∀ q : ℚ, id = .num (.fin q) → q ≠ 0 → o 0 = .done →
        (setRevid c o db id).result = .ok .undefined ∧
        (setRevid c o db id).calls = [.set "concerts/revid" id] ∧
        (setRevid c o db id).db.revid = id) ∧
      (∀ u, typeOf id = "number" → id ≠ .num .nan → id ≠ .num (.fin 0) →
        (setRevid c o db id).result = .ok u →
        (setRevid c o db id).calls = [.set "concerts/revid" id] ∧
        (setRevid c o db id).db.revid = id) := by
  have valid_of : typeOf id = "number" → id ≠ .num .nan → id ≠ .num (.fin 0) →
      truthy id = true := by
    intro hn h1 h2
    by_contra hc
    have := (revid_invalid_iff id).mp (Or.inl (by simpa using hc))
    rcases this with h | h | h
    · exact h hn
    · exact h1 h
    · exact h2 h
  refine ⟨?_, ?_, ?_⟩
  · rw [← revid_invalid_iff]
    constructor
    · intro h
      by_contra hc
      simp only [not_or, Bool.not_eq_false, ne_eq, not_not] at hc
      rw [setRevid_valid c o db id hc.1 hc.2] at h
      cases hr : refusal c "set" id with
      | some err =>
        simp only [hr, Except.error.injEq] at h
        exact wrapped_ne_validation _ h
      | none =>
        cases ho : o 0 with
        | done => simp [hr, ho] at h
        | failed e =>
          simp only [hr, ho, Except.error.injEq] at h
          exact wrapped_ne_validation _ h
    · intro h
      rw [invalid_setRevid_run c o db id h]
  · intro q hq hq0 ho
    subst hq
    rw [setRevid_valid c o db (.num (.fin q)) (by simpa [truthy] using hq0) rfl, ho]
    exact ⟨rfl, rfl, rfl⟩
  · intro u hn h1 h2 h
    rw [setRevid_valid c o db id (valid_of hn h1 h2) hn] at h ⊢
    cases hr : refusal c "set" id with
    | some err => simp [hr] at h
    | none =>
      cases ho : o 0 with
      | done => exact ⟨rfl, rfl⟩
      | failed e => simp [hr, ho] at h

/-- An instance of C8 as amended: `setRevid(-3)` passes the validation and is written. -/
theorem setRevid_validation_iff_witness :
    (setRevid sampleClient (fun _ => .done) ⟨[], .null, .num (.fin 5)⟩
        (.num (.fin (-3)))).result = .ok .undefined ∧
      (setRevid sampleClient (fun _ => .done) ⟨[], .null, .num (.fin 5)⟩
        (.num (.fin (-3)))).calls = [.set "concerts/revid" (.num (.fin (-3)))] ∧
      (setRevid sampleClient (fun _ => .done) ⟨[], .null, .num (.fin 5)⟩
        (.num (.fin (-3)))).db.revid = .num (.fin (-3)) :=
  (setRevid_validation_iff sampleClient (fun _ => .done) ⟨[], .null, .num (.fin 5)⟩
    (.num (.fin (-3)))).2.1 (-3) rfl (by norm_num) rfl

/-! ## Failures of the remote calls -/

/-- A transaction whose new value the client accepts and whose remote call fails with `e` is
rejected with `e`. -/
theorem refTransaction_failed (c : Client) (db : Db) (path : String) (f : JsVal → JsVal)
    (e : JsError) (hne : f (db.val path) ≠ .undefined)
    (hr : refusal c "transaction" (f (db.val path)) = none) :
    (refTransaction c (.failed e) db path f).result = .error e := by
  unfold refTransaction
  generalize f (db.val path) = v at hne hr
  cases v <;> simp_all

/-- C4, refuted as stated: in `setConcertsLinks(["b", NaN])` the push of `b` is made and fails
with `permission denied`, the push of NaN throws in the value check of the client, and the call
fails with the message of the client, not with `Failed to set concertsLinks: permission
denied`. -/
theorem setConcertsLinks_thrown_push_hides_failure :
    (setConcertsLinks sampleClient
        (fun k => if k = 0 then .failed ⟨"Error", "permission denied"⟩ else .done)
        ⟨[.str "a"], .null, .null⟩ (.arr [.str "b", .num .nan])).calls
          = [.push "concerts/links" (.str "b")] ∧
      (setConcertsLinks sampleClient
        (fun k => if k = 0 then .failed ⟨"Error", "permission denied"⟩ else .done)
        ⟨[.str "a"], .null, .null⟩ (.arr [.str "b", .num .nan])).result
          = .error (mkError ("Failed to set concertsLinks: " ++
              "push failed: value argument contains NaN")) ∧
      (setConcertsLinks sampleClient
        (fun k => if k = 0 then .failed ⟨"Error", "permission denied"⟩ else .done)
        ⟨[.str "a"], .null, .null⟩ (.arr [.str "b", .num .nan])).result
          ≠ .error (mkError ("Failed to set concertsLinks: " ++ "permission denied")) := by
  have hrun : setConcertsLinks sampleClient
      (fun k => if k = 0 then .failed ⟨"Error", "permission denied"⟩ else .done)
      ⟨[.str "a"], .null, .null⟩ (.arr [.str "b", .num .nan]) =
      { result := .error (mkError ("Failed to set concertsLinks: " ++
          "push failed: value argument contains NaN")),
        db := ⟨[.str "a"], .null, .null⟩, calls := [.push "concerts/links" (.str "b")] } := rfl
  rw [hrun]
  refine ⟨rfl, rfl, ?_⟩
  simp only [ne_eq, Except.error.injEq, mkError, JsError.mk.injEq, true_and]
  decide

/-- C4, amended: when a remote call that an operation makes fails with `e`, each of `getData`,
`getRandConcert` (either of its two reads), `updateCount`, `getCount` and `setCount` fails with
`e` itself, and each of `setRevid` and `addNewConcertLink` fails with a new error whose message
is its fixed text followed by the message of `e`; `setConcertsLinks` fails with `Failed to set
concertsLinks: ` followed by the message of `e` when no push throws in the value check of the
client and `e` is the first rejected push, and with some error in every case.  The remote call
is made when the client accepts the path or the value; the second read of `getRandConcert` is
made when the value read first is neither `null` nor `undefined`. -/
theorem remote_failure_is_thrown (rt : Runtime) (c : Client) (o : Nat → Remote) (db : Db)
    (e : JsError) :
    (o 0 = .failed e →
      (∀ path, pathRefusal c path = none → (getData c o db path).result = .error e) ∧
      (∀ random, (getRandConcert rt c o db random).result = .error e) ∧
      (refusal c "transaction"
          (jsAdd rt (jsOr db.concerts_count (.num (.fin 0))) (.num (.fin 1))) = none →
        (updateCount rt c o db).result = .error e) ∧
      (getCount o db).result = .error e ∧
      (∀ num, typeOf num = "number" → num ≠ .num .nan → refusal c "set" num = none →
        (setCount rt c o db num).result = .error e) ∧
      (∀ id, truthy id = true → typeOf id = "number" → refusal c "set" id = none →
        (setRevid c o db id).result = .error (mkError ("Failed to set revid: " ++ e.message))) ∧
      (∀ link, truthy link = true → typeOf link = "string" → pushThrows c link = none →
        (addNewConcertLink c o db link).result =
          .error (mkError ("Failed to add new concert link: " ++ e.message)))) ∧
    (o 0 = .done → o 1 = .failed e → nullish db.concerts_count = false →
      ∀ random, (getRandConcert rt c o db random).result = .error e) ∧
    (∀ (xs : List JsVal) (i : Nat), (∀ x ∈ xs, pushThrows c x = none) →
      i < xs.length → o i = .failed e →
      nullish (xs.getD i .undefined) = false →
      (∀ j, j < i → o j = .done ∨ nullish (xs.getD j .undefined) = true) →
      (setConcertsLinks c o db (.arr xs)).result =
        .error (mkError ("Failed to set concertsLinks: " ++ e.message))) ∧
    (∀ (xs : List JsVal) (i : Nat), i < xs.length → o i = .failed e →
      nullish (xs.getD i .undefined) = false →
      (∀ j, j ≤ i → pushThrows c (xs.getD j .undefined) = none) →
      ∃ err, (setConcertsLinks c o db (.arr xs)).result = .error err) := by
  refine ⟨?_, ?_, ?_, ?_⟩
  · intro ho
    refine ⟨?_, ?_, ?_, ?_, ?_, ?_, ?_⟩
    · intro path hp
      simp [getData, hp, refOnce, ho]
    · intro random
      simp [getRandConcert, getData, pathRefusal_count, refOnce, ho]
    · intro hr
      have hne := jsAdd_ne_undefined rt (jsOr db.concerts_count (.num (.fin 0))) (.num (.fin 1))
      have ht := refTransaction_failed c db "concerts/concerts_count"
        (fun currentValue => jsAdd rt (jsOr currentValue (.num (.fin 0))) (.num (.fin 1))) e
        (by simpa [val_count] using hne) (by simpa [val_count] using hr)
      unfold updateCount
      rw [ho]
      simp only [ht]
    · simp [getCount, refOnce, ho]
    · intro num hn hnan hr
      have hnot : isNaN rt num = false := by
        cases num with
        | num n => cases n <;> simp_all [isNaN, toNumber]
        | _ => simp [typeOf] at hn
      simp [setCount, hn, hnot, refSet, hr, ho]
    · intro id ht hn hr
      rw [setRevid_valid c o db id ht hn, hr, ho]
    · intro link ht hs hr
      rw [addNewConcertLink_valid c o db link ht hs, hr, ho]
  · intro h0 h1 hn random
    have hp : ∃ m, getProp db.concerts_count "concerts_count" = .ok m := by
      cases hc : db.concerts_count <;> simp_all [getProp, nullish]
    obtain ⟨m, hm⟩ := hp
    simp [getRandConcert, getData, pathRefusal_count, refOnce, h0, h1, val_count, hm]
  · intro xs i hx hi ho hn hbefore
    have hne : xs ≠ [] := by
      intro h
      simp [h] at hi
    have ht := pushEach_thrown_none c o xs hx 0 db
    have hf := pushEach_first_failure c o e xs hx 0 i db hi (by simpa using ho) hn
      (by simpa using hbefore)
    rw [setConcertsLinks_valid c o db xs hne, ht, hf]
  · intro xs i hi ho hn hchk
    have hne : xs ≠ [] := by
      intro h
      simp [h] at hi
    rw [setConcertsLinks_valid c o db xs hne]
    rcases pushEach_failure_seen c o e xs 0 i db hi (by simpa using ho) hn hchk with h | h
    · cases ht : (pushEach c o "concerts/links" 0 xs db).thrown with
      | none => exact absurd ht h
      | some err => exact ⟨_, rfl⟩
    · cases ht : (pushEach c o "concerts/links" 0 xs db).thrown with
      | some err => exact ⟨_, rfl⟩
      | none =>
        cases hr : (pushEach c o "concerts/links" 0 xs db).rejected with
        | none => exact absurd hr h
        | some err => exact ⟨_, rfl⟩

/-- Instances of C4 as amended: a failing read under `getCount`, a failing write under
`setRevid` and a failing second push under `setConcertsLinks`. -/
theorem remote_failure_is_thrown_witness :
    (getCount (fun _ => .failed ⟨"Error", "permission denied"⟩)
        ⟨[.str "a"], .num (.fin 1), .null⟩).result = .error ⟨"Error", "permission denied"⟩ ∧
      (setRevid sampleClient (fun _ => .failed ⟨"Error", "permission denied"⟩)
        ⟨[.str "a"], .num (.fin 1), .null⟩ (.num (.fin 7))).result =
          .error (mkError ("Failed to set revid: " ++ "permission denied")) ∧
      (setConcertsLinks sampleClient
        (fun k => if k = 1 then .failed ⟨"Error", "permission denied"⟩ else .done)
        ⟨[.str "a"], .num (.fin 1), .null⟩ (.arr [.str "b", .str "c"])).result =
          .error (mkError ("Failed to set concertsLinks: " ++ "permission denied")) :=
  ⟨((remote_failure_is_thrown sampleRuntime sampleClient
      (fun _ => .failed ⟨"Error", "permission denied"⟩) ⟨[.str "a"], .num (.fin 1), .null⟩
      ⟨"Error", "permission denied"⟩).1 rfl).2.2.2.1,
   ((remote_failure_is_thrown sampleRuntime sampleClient
      (fun _ => .failed ⟨"Error", "permission denied"⟩) ⟨[.str "a"], .num (.fin 1), .null⟩
      ⟨"Error", "permission denied"⟩).1 rfl).2.2.2.2.2.1 (.num (.fin 7)) (by simp [truthy]) rfl
      rfl,
   (remote_failure_is_thrown sampleRuntime sampleClient
      (fun k => if k = 1 then .failed ⟨"Error", "permission denied"⟩ else .done)
      ⟨[.str "a"], .num (.fin 1), .null⟩ ⟨"Error", "permission denied"⟩).2.2.1
      [.str "b", .str "c"] 1
      (by intro x hx; simp at hx; rcases hx with rfl | rfl <;> rfl)
      (by simp) (by simp) (by simp [nullish])
      (by intro j hj; left; have : j = 0 := by omega
          subst this; simp)⟩

end ConcertDb
